import Mathlib

/-!
Shallow embedding of kminion's `minion/service.go` (package `minion`) and
proofs about it.

Modelling conventions:
* Go `time.Duration` is an `Int` counting nanoseconds; Go integer division
  truncates toward zero, which is `Int.tdiv`.
* Go `float64` values produced and consumed by this code (histogram bucket
  boundaries, `Duration.Seconds()`) are modelled as exact rationals.  For the
  bucket sequence this is faithful: `prometheus.ExponentialBuckets(0.005, 2, n)`
  only doubles, and doubling a float64 is exact.
* Code that panics (`prometheus.ExponentialBuckets` with a non-positive count)
  is modelled with `Option`, `none` being the panic.
-/

namespace Minion

/-- `time.Duration.Milliseconds()`: `int64(d) / 1e6`, truncating toward zero. -/
def durationMilliseconds (ns : Int) : Int :=
  ns.tdiv 1000000

/-- `time.Duration.Seconds()`: the duration expressed in seconds, as an exact
rational in place of the float64 the Go code computes. -/
def durationSeconds (ns : Int) : ℚ :=
  (ns : ℚ) / 1000000000

/-- `prometheus.ExponentialBuckets(start, factor, count)`: returns
`start, start*factor, start*factor^2, ...` of length `count`, and panics
(modelled as `none`) when `count < 1`, `start ≤ 0` or `factor ≤ 1`. -/
def exponentialBuckets (start factor : ℚ) (count : Int) : Option (List ℚ) :=
  if count < 1 then none
  else if start ≤ 0 then none
  else if factor ≤ 1 then none
  else some ((List.range count.toNat).map fun i => start * factor ^ i)

/-- `int(math.Logb(float64(q)))` as computed in `createHistogramBuckets`.
For a nonzero integer `q` (every such `q` here is below `2^53`, so the
`float64` conversion is exact), `math.Logb` returns the binary exponent
`floor(log2 |q|)` exactly.  For `q = 0`, `math.Logb` returns `-Inf` and the
Go conversion of `-Inf` to `int` is implementation-defined; on the usual
amd64/arm64 targets it yields `math.MinInt64`. -/
def goLogbInt (q : Int) : Int :=
  if q = 0 then -(2 ^ 63)
  else (Nat.log 2 q.natAbs : Int)

/-- `createHistogramBuckets(maxLatency)` from `minion/service.go`:

    latencyCount := math.Logb(float64(maxLatency.Milliseconds() / 10))
    count := int(latencyCount) + 3
    bucket := prometheus.ExponentialBuckets(0.005, 2, count)
    return bucket
-/
def createHistogramBuckets (maxLatencyNs : Int) : Option (List ℚ) :=
  let latencyCount := goLogbInt ((durationMilliseconds maxLatencyNs).tdiv 10)
  let count := latencyCount + 3
  exponentialBuckets (1 / 200) 2 count

end Minion

namespace Minion

lemma millis_ofNat (n : Nat) : durationMilliseconds (n : Int) = ((n / 1000000 : Nat) : Int) :=
  rfl

/-- For a nonnegative latency whose millisecond count reaches 10, the
function takes its happy path: the count is `Nat.log 2 (ms / 10) + 3`
(`Nat.log 2` is the floor of the base-2 logarithm) and the buckets are
`0.005 * 2 ^ i`. -/
lemma createHistogramBuckets_eq (n : Nat) (h : 1 ≤ n / 1000000 / 10) :
    createHistogramBuckets (n : Int) =
      some ((List.range (Nat.log 2 (n / 1000000 / 10) + 3)).map fun i => (1/200 : ℚ) * 2 ^ i) := by
  have h1 : (durationMilliseconds (n : Int)).tdiv 10 = ((n / 1000000 / 10 : Nat) : Int) := rfl
  have h0 : ((n / 1000000 / 10 : Nat) : Int) ≠ 0 := by
    have := Nat.one_le_iff_ne_zero.mp h
    exact_mod_cast this
  have h2 : goLogbInt ((n / 1000000 / 10 : Nat) : Int) = (Nat.log 2 (n / 1000000 / 10) : Int) := by
    simp only [goLogbInt, if_neg h0, Int.natAbs_ofNat]
  show exponentialBuckets (1/200) 2
      (goLogbInt ((durationMilliseconds (n : Int)).tdiv 10) + 3) = _
  rw [h1, h2, exponentialBuckets]
  rw [if_neg (by omega), if_neg (by norm_num), if_neg (by norm_num)]
  have h3 : ((Nat.log 2 (n / 1000000 / 10) : Int) + 3).toNat = Nat.log 2 (n / 1000000 / 10) + 3 := by
    omega
  rw [h3]

/-- C1: for every maxLatency of at least 20 milliseconds,
`createHistogramBuckets` returns a bucket sequence that is strictly
increasing, starts at 0.005, doubles at every step, and whose last element is
at least maxLatency expressed in seconds. -/
theorem createHistogramBuckets_increasing_doubling_covers (maxLatencyNs : Int)
    (h : 20 * 1000000 ≤ maxLatencyNs) :
    ∃ l : List ℚ, createHistogramBuckets maxLatencyNs = some l ∧
      l.Pairwise (· < ·) ∧
      l.head? = some 0.005 ∧
      l.Chain' (fun a b => b = 2 * a) ∧
      ∀ x ∈ l.getLast?, durationSeconds maxLatencyNs ≤ x := by
  obtain ⟨n, rfl⟩ := Int.eq_ofNat_of_zero_le (le_trans (by norm_num) h)
  have hn : 20000000 ≤ n := by exact_mod_cast h
  have h20 : 20 ≤ n / 1000000 := (Nat.le_div_iff_mul_le (by norm_num)).mpr (by omega)
  have hq1 : 1 ≤ n / 1000000 / 10 := (Nat.le_div_iff_mul_le (by norm_num)).mpr (by omega)
  set q : Nat := n / 1000000 / 10 with hqdef
  set L : Nat := Nat.log 2 q with hLdef
  refine ⟨_, createHistogramBuckets_eq n hq1, ?_, ?_, ?_, ?_⟩
  · rw [List.chain'_iff_pairwise.symm, List.chain'_map]
    have h3 : L + 3 = (L + 2) + 1 := rfl
    rw [h3, List.chain'_range_succ]
    intro m _
    have hp : (0:ℚ) < 2 ^ m := by positivity
    rw [pow_succ]
    linarith
  · have h3 : L + 3 = (L + 2) + 1 := rfl
    rw [h3, List.range_succ_eq_map]
    norm_num
  · rw [List.chain'_map]
    have h3 : L + 3 = (L + 2) + 1 := rfl
    rw [h3, List.chain'_range_succ]
    intro m _
    rw [pow_succ]
    ring
  · have h3 : L + 3 = (L + 2) + 1 := rfl
    rw [h3]
    have hlast : ((List.range ((L+2)+1)).map fun i => (1/200 : ℚ) * 2 ^ i).getLast?
        = some ((1/200 : ℚ) * 2 ^ (L+2)) := by
      simp [List.range_succ]
    rw [hlast]
    intro x hx
    simp only [Option.mem_def, Option.some.injEq] at hx
    subst hx
    have hq2 : q < 2 ^ (L + 1) := Nat.lt_pow_succ_log_self (by norm_num) q
    have e1 : n = 1000000 * (n / 1000000) + n % 1000000 := (Nat.div_add_mod n 1000000).symm
    have e2 : n / 1000000 = 10 * q + (n / 1000000) % 10 := by
      rw [hqdef]; exact (Nat.div_add_mod (n / 1000000) 10).symm
    have h4 : n % 1000000 < 1000000 := Nat.mod_lt n (by norm_num)
    have h5 : (n / 1000000) % 10 < 10 := Nat.mod_lt _ (by norm_num)
    have hlt : n < 10000000 * 2 ^ (L + 1) := by omega
    have hltQ : (n : ℚ) < 10000000 * 2 ^ (L + 1) := by exact_mod_cast hlt
    show (n : ℚ) / 1000000000 ≤ 1/200 * 2 ^ (L + 2)
    rw [div_le_iff₀ (by norm_num : (0:ℚ) < 1000000000)]
    have heq : (1:ℚ)/200 * 2 ^ (L + 2) * 1000000000 = 10000000 * 2 ^ (L + 1) := by ring
    rw [heq]
    exact le_of_lt hltQ

/-- Witness for C1 at maxLatency = 20ms (20000000 ns). -/
theorem createHistogramBuckets_increasing_doubling_covers_witness :
    ∃ l : List ℚ, createHistogramBuckets 20000000 = some l ∧
      l.Pairwise (· < ·) ∧
      l.head? = some 0.005 ∧
      l.Chain' (fun a b => b = 2 * a) ∧
      ∀ x ∈ l.getLast?, durationSeconds 20000000 ≤ x :=
  createHistogramBuckets_increasing_doubling_covers 20000000 (by norm_num)

/-- C3: for every maxLatency of at least 10 milliseconds, the number of
bucket boundaries equals `floor(log2(maxLatencyMillis / 10)) + 3`, with
`maxLatencyMillis` the latency in whole milliseconds and `Nat.log 2` the
floor of the base-2 logarithm. -/
theorem createHistogramBuckets_count (maxLatencyNs : Int)
    (h : 10 * 1000000 ≤ maxLatencyNs) :
    ∃ l : List ℚ, createHistogramBuckets maxLatencyNs = some l ∧
      l.length = Nat.log 2 ((durationMilliseconds maxLatencyNs).toNat / 10) + 3 := by
  obtain ⟨n, rfl⟩ := Int.eq_ofNat_of_zero_le (le_trans (by norm_num) h)
  have hn : 10000000 ≤ n := by exact_mod_cast h
  have hq1 : 1 ≤ n / 1000000 / 10 := by
    have h10 : 10 ≤ n / 1000000 := (Nat.le_div_iff_mul_le (by norm_num)).mpr (by omega)
    exact (Nat.le_div_iff_mul_le (by norm_num)).mpr (by omega)
  refine ⟨_, createHistogramBuckets_eq n hq1, ?_⟩
  have hmt : (durationMilliseconds (n : Int)).toNat = n / 1000000 := by
    rw [millis_ofNat]; exact Int.toNat_natCast _
  rw [hmt]
  simp

/-- Witness for C3 at maxLatency = 1s (1000000000 ns). -/
theorem createHistogramBuckets_count_witness :
    ∃ l : List ℚ, createHistogramBuckets 1000000000 = some l ∧
      l.length = Nat.log 2 ((durationMilliseconds 1000000000).toNat / 10) + 3 :=
  createHistogramBuckets_count 1000000000 (by norm_num)

/-- C2 (code bug): at maxLatency = 5ms the millisecond count divided by 10 is
zero, `math.Logb(0)` is negative infinity, the conversion to `int` produces a
hugely negative count instead of a count clamped to 1, and
`prometheus.ExponentialBuckets` panics (modelled as `none`): no boundary
sequence is returned. -/
theorem createHistogramBuckets_panics_below_10ms :
    goLogbInt ((durationMilliseconds 5000000).tdiv 10) + 3 < 1 ∧
      createHistogramBuckets 5000000 = none := by
  constructor
  · decide
  · rfl

end Minion

namespace Minion

variable {V : Type}

/-- State of the `Service` cache: the `cache` map (`map[string]interface{}`,
the opaque value type kept as a parameter `V`) together with the expiry
timers spawned by `setCachedItem`.  Each timer records only the key its
goroutine captured and the absolute time (in nanoseconds, like Go's
`time.Time`) at which its `time.Sleep(timeout)` elapses. -/
structure CacheState (V : Type) where
  cache : String → Option V
  timers : List (String × Int)

/-- The cache of a fresh service: `make(map[string]interface{})`, no timers. -/
def CacheState.empty (V : Type) : CacheState V :=
  { cache := fun _ => none, timers := [] }

/-- `getCachedItem`: a read of the map under the read lock. -/
def getCachedItem (s : CacheState V) (key : String) : Option V :=
  s.cache key

/-- `deleteCachedItem`: removes the key from the map, unconditionally. -/
def deleteCachedItem (s : CacheState V) (key : String) : CacheState V :=
  { s with cache := fun k => if k = key then none else s.cache k }

/-- `setCachedItem` called at absolute time `now`: spawns
`go func() { time.Sleep(timeout); s.deleteCachedItem(key) }` and installs the
value.  The goroutine closes over the key alone — no generation token — so
the scheduled deletion is recorded as the pair of the key and the absolute
fire time `now + timeout`. -/
def setCachedItem (s : CacheState V) (key : String) (val : V) (timeoutNs : Int) (now : Int) :
    CacheState V :=
  { cache := fun k => if k = key then some val else s.cache k,
    timers := (key, now + timeoutNs) :: s.timers }

/-- A pending expiry goroutine wakes up: it runs `deleteCachedItem` on its
captured key and is consumed. -/
def fireExpiry (s : CacheState V) (t : String × Int) : CacheState V :=
  if t ∈ s.timers then
    { cache := (deleteCachedItem s t.1).cache, timers := s.timers.erase t }
  else s

/-- C4 (code bug): Set("k", 1, ttl 1s) at time 0, then Set("k", 2, ttl 10s)
at time 0.5s — before the first ttl has elapsed.  When the first Set's
scheduled expiry fires (at time 1s) it deletes the key unconditionally, so a
Get("k") issued after 1s — while the second ttl is still pending (its timer,
fire time 10.5s, is still in the state) — finds nothing instead of the newer
value 2. -/
theorem setCachedItem_stale_expiry_deletes_newer_value :
    getCachedItem
        (fireExpiry
          (setCachedItem (setCachedItem (CacheState.empty Nat) "k" 1 1000000000 0)
            "k" 2 10000000000 500000000)
          ("k", 1000000000))
        "k" = none ∧
      ("k", (10500000000 : Int)) ∈ (fireExpiry
          (setCachedItem (setCachedItem (CacheState.empty Nat) "k" 1 1000000000 0)
            "k" 2 10000000000 500000000)
          ("k", 1000000000)).timers := by
  constructor
  · rfl
  · decide

end Minion

namespace Minion

/-- `Config.EndToEnd.Producer`: the producer ack SLA (`time.Duration`,
nanoseconds). -/
structure ProducerConfig where
  AckSla : Int

/-- `Config.EndToEnd.Consumer`: the roundtrip and offset-commit SLAs
(`time.Duration`, nanoseconds). -/
structure ConsumerConfig where
  RoundtripSla : Int
  CommitSla : Int

/-- `Config.EndToEnd`. -/
structure EndToEndConfig where
  Enabled : Bool
  Producer : ProducerConfig
  Consumer : ConsumerConfig

/-- `Config.LogDirs`. -/
structure LogDirsConfig where
  Enabled : Bool

/-- The slice of `Service.Cfg` this code reads or writes. -/
structure Config where
  EndToEnd : EndToEndConfig
  LogDirs : LogDirsConfig

/-- The end-to-end Prometheus sinks of `Service`.  A counter holds the number
of `Inc()` calls; a histogram holds the list of values passed to
`Observe` (most recent first), in seconds. -/
structure E2EMetrics where
  messagesProduced : Nat
  messagesAcked : Nat
  messagesReceived : Nat
  messagesCommitted : Nat
  ackLatencyObs : List ℚ
  roundtripLatencyObs : List ℚ
  commitLatencyObs : List ℚ

/-- The metrics of a fresh service: every counter zero, every histogram
empty. -/
def E2EMetrics.initial : E2EMetrics :=
  { messagesProduced := 0, messagesAcked := 0, messagesReceived := 0, messagesCommitted := 0,
    ackLatencyObs := [], roundtripLatencyObs := [], commitLatencyObs := [] }

/-- `onAck`: increments the acked counter and observes the ack latency in
seconds.  Its body reads nothing from the config. -/
def onAck (_cfg : Config) (m : E2EMetrics) (_partitionId : Int) (durationNs : Int) :
    E2EMetrics :=
  { m with messagesAcked := m.messagesAcked + 1,
           ackLatencyObs := durationSeconds durationNs :: m.ackLatencyObs }

/-- `onRoundtrip`: returns early ("message is too old") when the duration
exceeds the roundtrip SLA; otherwise increments the received counter and
observes the roundtrip latency in seconds. -/
def onRoundtrip (cfg : Config) (m : E2EMetrics) (_partitionId : Int) (durationNs : Int) :
    E2EMetrics :=
  if cfg.EndToEnd.Consumer.RoundtripSla < durationNs then m
  else
    { m with messagesReceived := m.messagesReceived + 1,
             roundtripLatencyObs := durationSeconds durationNs :: m.roundtripLatencyObs }

/-- `onOffsetCommit`: observes the commit latency in seconds first, then
returns early when the duration exceeds the commit SLA; otherwise also
increments the committed counter. -/
def onOffsetCommit (cfg : Config) (m : E2EMetrics) (_partitionId : Int) (durationNs : Int) :
    E2EMetrics :=
  let m1 := { m with commitLatencyObs := durationSeconds durationNs :: m.commitLatencyObs }
  if cfg.EndToEnd.Consumer.CommitSla < durationNs then m1
  else { m1 with messagesCommitted := m1.messagesCommitted + 1 }

end Minion

namespace Minion

/-- A concrete configuration used to instantiate theorems: ack SLA 5s,
roundtrip SLA 5s, commit SLA 1s, all features on. -/
def sampleConfig : Config :=
  { EndToEnd :=
      { Enabled := true,
        Producer := { AckSla := 5000000000 },
        Consumer := { RoundtripSla := 5000000000, CommitSla := 1000000000 } },
    LogDirs := { Enabled := true } }

/-- C6: `onAck` increments the acked counter by exactly one and records the
duration in seconds in the ack histogram, touches no other metric, and makes
no comparison against the ack SLA: its result is the same under every
configuration. -/
theorem onAck_unconditional (cfg cfg' : Config) (m : E2EMetrics)
    (partitionId durationNs : Int) :
    (onAck cfg m partitionId durationNs).messagesAcked = m.messagesAcked + 1 ∧
    (onAck cfg m partitionId durationNs).ackLatencyObs
      = durationSeconds durationNs :: m.ackLatencyObs ∧
    (onAck cfg m partitionId durationNs).messagesProduced = m.messagesProduced ∧
    (onAck cfg m partitionId durationNs).messagesReceived = m.messagesReceived ∧
    (onAck cfg m partitionId durationNs).messagesCommitted = m.messagesCommitted ∧
    (onAck cfg m partitionId durationNs).roundtripLatencyObs = m.roundtripLatencyObs ∧
    (onAck cfg m partitionId durationNs).commitLatencyObs = m.commitLatencyObs ∧
    onAck cfg m partitionId durationNs = onAck cfg' m partitionId durationNs := by
  simp [onAck]

/-- C7: when the duration exceeds the roundtrip SLA, `onRoundtrip` leaves the
metrics state completely untouched; otherwise it increments the received
counter by exactly one and records the duration in seconds in the roundtrip
histogram, touching nothing else. -/
theorem onRoundtrip_sla_gated (cfg : Config) (m : E2EMetrics)
    (partitionId durationNs : Int) :
    (cfg.EndToEnd.Consumer.RoundtripSla < durationNs →
      onRoundtrip cfg m partitionId durationNs = m) ∧
    (durationNs ≤ cfg.EndToEnd.Consumer.RoundtripSla →
      (onRoundtrip cfg m partitionId durationNs).messagesReceived = m.messagesReceived + 1 ∧
      (onRoundtrip cfg m partitionId durationNs).roundtripLatencyObs
        = durationSeconds durationNs :: m.roundtripLatencyObs ∧
      (onRoundtrip cfg m partitionId durationNs).messagesProduced = m.messagesProduced ∧
      (onRoundtrip cfg m partitionId durationNs).messagesAcked = m.messagesAcked ∧
      (onRoundtrip cfg m partitionId durationNs).messagesCommitted = m.messagesCommitted ∧
      (onRoundtrip cfg m partitionId durationNs).ackLatencyObs = m.ackLatencyObs ∧
      (onRoundtrip cfg m partitionId durationNs).commitLatencyObs = m.commitLatencyObs) := by
  constructor
  · intro h
    simp [onRoundtrip, if_pos h]
  · intro h
    simp [onRoundtrip, if_neg (not_lt.mpr h)]

/-- Witness for C7: the spec example, roundtrip SLA 5s.  A 10s roundtrip
touches nothing; a 2s roundtrip increments the received counter. -/
theorem onRoundtrip_sla_gated_witness :
    onRoundtrip sampleConfig E2EMetrics.initial 0 10000000000 = E2EMetrics.initial ∧
    (onRoundtrip sampleConfig E2EMetrics.initial 0 2000000000).messagesReceived
      = E2EMetrics.initial.messagesReceived + 1 :=
  ⟨(onRoundtrip_sla_gated sampleConfig E2EMetrics.initial 0 10000000000).1
     (by norm_num [sampleConfig]),
   ((onRoundtrip_sla_gated sampleConfig E2EMetrics.initial 0 2000000000).2
     (by norm_num [sampleConfig])).1⟩

/-- C8: `onOffsetCommit` always records the duration in seconds in the commit
histogram, and increments the committed counter by exactly one if and only if
the duration is within the commit SLA; no other metric is touched. -/
theorem onOffsetCommit_histogram_always_counter_gated (cfg : Config) (m : E2EMetrics)
    (partitionId durationNs : Int) :
    (onOffsetCommit cfg m partitionId durationNs).commitLatencyObs
      = durationSeconds durationNs :: m.commitLatencyObs ∧
    ((onOffsetCommit cfg m partitionId durationNs).messagesCommitted
        = m.messagesCommitted + 1 ↔ durationNs ≤ cfg.EndToEnd.Consumer.CommitSla) ∧
    (onOffsetCommit cfg m partitionId durationNs).messagesProduced = m.messagesProduced ∧
    (onOffsetCommit cfg m partitionId durationNs).messagesAcked = m.messagesAcked ∧
    (onOffsetCommit cfg m partitionId durationNs).messagesReceived = m.messagesReceived ∧
    (onOffsetCommit cfg m partitionId durationNs).ackLatencyObs = m.ackLatencyObs ∧
    (onOffsetCommit cfg m partitionId durationNs).roundtripLatencyObs = m.roundtripLatencyObs := by
  by_cases h : cfg.EndToEnd.Consumer.CommitSla < durationNs
  · have hn : ¬ durationNs ≤ cfg.EndToEnd.Consumer.CommitSla := not_le.mpr h
    simp [onOffsetCommit, if_pos h, hn]
  · have hle : durationNs ≤ cfg.EndToEnd.Consumer.CommitSla := not_lt.mp h
    simp [onOffsetCommit, if_neg h, hle]

/-- Witness for C8: the spec example, commit SLA 1s, duration 1.2s: the
histogram observes 1.2 while the counter stays at zero. -/
theorem onOffsetCommit_histogram_always_counter_gated_witness :
    (onOffsetCommit sampleConfig E2EMetrics.initial 0 1200000000).commitLatencyObs
      = durationSeconds 1200000000 :: E2EMetrics.initial.commitLatencyObs ∧
    ((onOffsetCommit sampleConfig E2EMetrics.initial 0 1200000000).messagesCommitted
        = E2EMetrics.initial.messagesCommitted + 1 ↔
      (1200000000 : Int) ≤ sampleConfig.EndToEnd.Consumer.CommitSla) :=
  ⟨(onOffsetCommit_histogram_always_counter_gated sampleConfig E2EMetrics.initial 0 1200000000).1,
   (onOffsetCommit_histogram_always_counter_gated sampleConfig E2EMetrics.initial 0 1200000000).2.1⟩

end Minion

namespace Minion

/-- The set of API keys the broker reports support for
(`kversion.FromApiVersionsResponse(versionsRes)`), as the list of supported
key numbers; `HasKey` is membership. -/
def hasKey (versions : List Int) (k : Int) : Bool :=
  versions.contains k

/-- The API key of `kmsg.NewDescribeLogDirsRequest()`: `k.Key() = 35`. -/
def describeLogDirsApiKey : Int := 35

/-- The error `ensureCompatibility` returns when the api-versions request
fails: the cause wrapped as "kafka api versions couldn't be fetched: %w". -/
inductive CompatError (E : Type) where
  | versionsFetchFailed (cause : E)
  deriving DecidableEq

/-- `ensureCompatibility`.  The call `s.GetAPIVersions(ctx)` is an external
broker request; its outcome is passed in as `versionsRes`.  On failure the
error is wrapped and returned; on success, when log-dir description is
enabled but the broker version set lacks the DescribeLogDirs key, a warning
is logged and `Cfg.LogDirs.Enabled` is forced to false; no error is
returned. -/
def ensureCompatibility {E : Type} (versionsRes : Except E (List Int)) (cfg : Config) :
    Except (CompatError E) Config :=
  match versionsRes with
  | .error e => .error (.versionsFetchFailed e)
  | .ok versions =>
    if cfg.LogDirs.Enabled then
      if hasKey versions describeLogDirsApiKey then .ok cfg
      else .ok { cfg with LogDirs.Enabled := false }
    else .ok cfg

/-- C9: if the api-version query succeeds with a version set lacking the
DescribeLogDirs key while LogDirs.Enabled is true, `ensureCompatibility`
returns no error and the returned configuration has LogDirs.Enabled = false;
if the query itself fails, it returns the wrapped error. -/
theorem ensureCompatibility_gates_logdirs {E : Type} (versions : List Int) (cfg : Config)
    (e : E) :
    (cfg.LogDirs.Enabled = true → hasKey versions describeLogDirsApiKey = false →
      ∃ cfg', ensureCompatibility (Except.ok versions : Except E (List Int)) cfg
          = Except.ok cfg' ∧
        cfg'.LogDirs.Enabled = false) ∧
    ensureCompatibility (Except.error e : Except E (List Int)) cfg
      = Except.error (CompatError.versionsFetchFailed e) := by
  constructor
  · intro hEn hKey
    refine ⟨{ cfg with LogDirs.Enabled := false }, ?_, rfl⟩
    simp [ensureCompatibility, hEn, hKey]
  · rfl

/-- Witness for C9: an empty version set (lacking key 35) with log dirs
enabled, and a concrete failed fetch. -/
theorem ensureCompatibility_gates_logdirs_witness :
    (∃ cfg', ensureCompatibility (Except.ok ([] : List Int) : Except String (List Int))
          sampleConfig
        = Except.ok cfg' ∧
      cfg'.LogDirs.Enabled = false) ∧
    ensureCompatibility (Except.error "connection refused" : Except String (List Int))
        sampleConfig
      = Except.error (CompatError.versionsFetchFailed "connection refused") :=
  ⟨(ensureCompatibility_gates_logdirs ([] : List Int) sampleConfig "connection refused").1
      rfl rfl,
   (ensureCompatibility_gates_logdirs ([] : List Int) sampleConfig "connection refused").2⟩

end Minion

namespace Minion

/-- Modelled from the spec: the population-coalescing operation
`GetOrPopulate(key, ttl, populateFn)` built on `Service.requestGroup`
(a `golang.org/x/sync/singleflight.Group`; the wrapper itself is not among
the provided source files).  The spec requires at most one concurrent
invocation of `populateFn` per key; concurrent callers for the same key
block until the first populator returns and all receive its result (value or
error) without re-invoking `populateFn`.

This structure is the state of one key of the group during a burst of
callers: `inFlight` lists the callers waiting on the single outstanding
`populateFn` call (`none` when no call is outstanding), `invocations` counts
how many times `populateFn` has been started, and `delivered` records the
result handed to each finished caller.  The result type `R` covers values
and errors alike (instantiate it with an `Except`). -/
structure FlightState (R : Type) where
  inFlight : Option (List Nat)
  invocations : Nat
  delivered : List (Nat × R)

/-- Modelled from the spec: the state before any caller arrives. -/
def FlightState.initial (R : Type) : FlightState R :=
  { inFlight := none, invocations := 0, delivered := [] }

/-- Modelled from the spec: caller `c` issues `GetOrPopulate` for the key.
If no populate call is outstanding, `populateFn` is invoked and `c` waits on
it; otherwise `c` joins the outstanding call as one more waiter. -/
def flightArrive {R : Type} (s : FlightState R) (c : Nat) : FlightState R :=
  match s.inFlight with
  | none => { inFlight := some [c], invocations := s.invocations + 1,
              delivered := s.delivered }
  | some ws => { s with inFlight := some (c :: ws) }

/-- Modelled from the spec: the outstanding `populateFn` call returns result
`r`; every waiting caller receives `r` and the in-flight entry is
destroyed. -/
def flightComplete {R : Type} (s : FlightState R) (r : R) : FlightState R :=
  match s.inFlight with
  | none => s
  | some ws => { inFlight := none, invocations := s.invocations,
                 delivered := ws.map (fun c => (c, r)) ++ s.delivered }

/-- Modelled from the spec: a burst of concurrent callers for one key — all
arrive while no result has been produced yet, then the single populate call
returns `r`. -/
def flightBurst {R : Type} (callers : List Nat) (r : R) : FlightState R :=
  flightComplete (callers.foldl flightArrive (FlightState.initial R)) r

lemma foldl_flightArrive_inFlight {R : Type} (rest : List Nat) (s : FlightState R)
    (ws : List Nat) (h : s.inFlight = some ws) :
    rest.foldl flightArrive s
      = { inFlight := some (rest.reverse ++ ws), invocations := s.invocations,
          delivered := s.delivered } := by
  induction rest generalizing s ws with
  | nil =>
    cases s with
    | mk inF inv del =>
      simp only [FlightState.mk.injEq] at h ⊢
      simp [h]
  | cons a rest ih =>
    have harr : flightArrive s a = { s with inFlight := some (a :: ws) } := by
      simp [flightArrive, h]
    rw [List.foldl_cons, harr, ih _ (a :: ws) rfl]
    simp

/-- C5: for every nonempty burst of concurrent `GetOrPopulate` callers for
one key, `populateFn` is invoked exactly once and every caller receives that
single invocation's result — nothing else is ever delivered. -/
theorem getOrPopulate_single_invocation {R : Type} (callers : List Nat) (r : R)
    (h : callers ≠ []) :
    (flightBurst callers r).invocations = 1 ∧
    (∀ c ∈ callers, (c, r) ∈ (flightBurst callers r).delivered) ∧
    (∀ p ∈ (flightBurst callers r).delivered, p.2 = r) := by
  cases callers with
  | nil => exact absurd rfl h
  | cons c rest =>
    have h1 : flightArrive (FlightState.initial R) c
        = { inFlight := some [c], invocations := 1, delivered := [] } := rfl
    have h2 : (c :: rest).foldl flightArrive (FlightState.initial R)
        = { inFlight := some (rest.reverse ++ [c]), invocations := 1, delivered := [] } := by
      rw [List.foldl_cons, h1, foldl_flightArrive_inFlight rest _ [c] rfl]
    have h3 : flightBurst (c :: rest) r
        = { inFlight := none, invocations := 1,
            delivered := (rest.reverse ++ [c]).map (fun w => (w, r)) ++ [] } := by
      rw [flightBurst, h2]
      rfl
    refine ⟨by rw [h3], ?_, ?_⟩
    · intro w hw
      rw [h3]
      simp only [List.append_nil, List.mem_map]
      refine ⟨w, ?_, rfl⟩
      simp only [List.mem_append, List.mem_reverse, List.mem_singleton]
      rcases List.mem_cons.mp hw with hw | hw
      · right; exact hw
      · left; exact hw
    · intro p hp
      rw [h3] at hp
      simp only [List.append_nil, List.mem_map] at hp
      obtain ⟨w, _, rfl⟩ := hp
      rfl

/-- Witness for C5: three concurrent callers, one shared result. -/
theorem getOrPopulate_single_invocation_witness :
    (flightBurst [0, 1, 2] true).invocations = 1 ∧
    (∀ c ∈ [0, 1, 2], (c, true) ∈ (flightBurst [0, 1, 2] true).delivered) ∧
    (∀ p ∈ (flightBurst [0, 1, 2] true).delivered, p.2 = true) :=
  getOrPopulate_single_invocation [0, 1, 2] true (by simp)

end Minion

namespace Minion

/-- The mutable state `NewService` assembles: the configuration, the cache
(with its pending expiry timers), the end-to-end metric sinks, the random
`minionID` and `lastRoundtripTimestamp` (a float64, modelled as ℚ). -/
structure ServiceState (V : Type) where
  Cfg : Config
  cache : CacheState V
  metrics : E2EMetrics
  minionID : String
  lastRoundtripTimestamp : ℚ

/-- `NewService`: fresh empty cache, zeroed metrics, a freshly generated
uuid as `minionID`, and `lastRoundtripTimestamp: 0`. -/
def newService (V : Type) (cfg : Config) (minionID : String) : ServiceState V :=
  { Cfg := cfg, cache := CacheState.empty V, metrics := E2EMetrics.initial,
    minionID := minionID, lastRoundtripTimestamp := 0 }

/-- One observable operation of the service after construction: a cache
mutation, an expiry goroutine firing, one of the three end-to-end callbacks,
or the startup compatibility gate rewriting the configuration. -/
inductive Step (V : Type) : ServiceState V → ServiceState V → Prop where
  | setItem (s : ServiceState V) (key : String) (val : V) (timeoutNs now : Int) :
      Step V s { s with cache := setCachedItem s.cache key val timeoutNs now }
  | deleteItem (s : ServiceState V) (key : String) :
      Step V s { s with cache := deleteCachedItem s.cache key }
  | expire (s : ServiceState V) (t : String × Int) :
      Step V s { s with cache := fireExpiry s.cache t }
  | ack (s : ServiceState V) (partitionId durationNs : Int) :
      Step V s { s with metrics := onAck s.Cfg s.metrics partitionId durationNs }
  | roundtrip (s : ServiceState V) (partitionId durationNs : Int) :
      Step V s { s with metrics := onRoundtrip s.Cfg s.metrics partitionId durationNs }
  | offsetCommit (s : ServiceState V) (partitionId durationNs : Int) :
      Step V s { s with metrics := onOffsetCommit s.Cfg s.metrics partitionId durationNs }
  | compat (s : ServiceState V) (versionsRes : Except String (List Int)) (cfg : Config) :
      ensureCompatibility versionsRes s.Cfg = Except.ok cfg →
      Step V s { s with Cfg := cfg }

/-- The states a service constructed by `NewService` can reach. -/
def Reachable (V : Type) (cfg : Config) (minionID : String) (s : ServiceState V) : Prop :=
  Relation.ReflTransGen (Step V) (newService V cfg minionID) s

/-- C10: `lastRoundtripTimestamp` is 0 at construction and no operation ever
writes it — `onRoundtrip` in particular leaves it unchanged — so it is 0 in
every reachable state. -/
theorem lastRoundtripTimestamp_always_zero {V : Type} (cfg : Config) (minionID : String)
    (s : ServiceState V) (h : Reachable V cfg minionID s) :
    s.lastRoundtripTimestamp = 0 := by
  induction h with
  | refl => rfl
  | tail _ hstep ih =>
    cases hstep <;> simpa using ih

/-- Witness for C10: the state just after construction is reachable. -/
theorem lastRoundtripTimestamp_always_zero_witness :
    (newService Nat sampleConfig "minion-0").lastRoundtripTimestamp = 0 :=
  lastRoundtripTimestamp_always_zero sampleConfig "minion-0"
    (newService Nat sampleConfig "minion-0") Relation.ReflTransGen.refl

end Minion
